import Mathlib

/-!
Shallow embedding of `src/cronJob.js`: an incremental blockchain log poller.
Per (chain, contract, strategy) cursors live in `lastProcessedBlocks`; each
poll computes a block range, fetches logs over JSON-RPC, normalizes them and
inserts them into a sink, then advances the cursor to the latest block.

External effects (HTTP, the database sink) are modelled as oracle functions
passed explicitly; the in-memory cursor object is modelled as an association
list threaded through the loop.
-/

namespace CronJob

/-- A row of `events.csv`: one tracked target (source lines 31-50, 179-180). -/
structure Event where
  chain : String
  factory_address : String
  exchange_name : String
  event : String
deriving DecidableEq, Repr

/-- A raw log entry as returned by `eth_getLogs` (fields read at lines 205-216). -/
structure RawLogEntry where
  transactionIndex : String
  transactionHash : String
  logIndex : String
  removed : Bool
  blockNumber : String
  blockHash : String
deriving DecidableEq, Repr

/-- The normalized record inserted into the `logs` table (lines 206-216). -/
structure LogRecord where
  transaction_index : Option Nat
  transaction_hash : String
  log_index : Option Nat
  removed : Bool
  block_number : Option Nat
  block_hash : String
  exchange : String
  network : String
  strategy : String
deriving DecidableEq, Repr

/-- Value of one hex digit character, `none` when the character is not a
hex digit. -/
def hexDigitVal (c : Char) : Option Nat :=
  if '0' ≤ c ∧ c ≤ '9' then some (c.toNat - 48)
  else if 'a' ≤ c ∧ c ≤ 'f' then some (c.toNat - 87)
  else if 'A' ≤ c ∧ c ≤ 'F' then some (c.toNat - 55)
  else none

/-- Accumulating hex scan: consume hex digits from the front, stop at the
first non-digit, exactly as JavaScript `parseInt(s, 16)` scans its input. -/
def parseHexAux : List Char → Nat → Nat
  | [], acc => acc
  | c :: rest, acc =>
    match hexDigitVal c with
    | some d => parseHexAux rest (16 * acc + d)
    | none => acc

/-- Strip the optional `0x`/`0X` prefix accepted by `parseInt(s, 16)`. -/
def stripHexPrefix : List Char → List Char
  | '0' :: 'x' :: rest => rest
  | '0' :: 'X' :: rest => rest
  | other => other

/-- `parseInt(_, 16)` on a character list: `none` models `NaN` when no hex
digit is present at the front. -/
def parseIntHexList (cs0 : List Char) : Option Nat :=
  match stripHexPrefix cs0 with
  | [] => none
  | c :: rest =>
    if (hexDigitVal c).isSome then some (parseHexAux (c :: rest) 0) else none

/-- Model of JavaScript `parseInt(s, 16)` on the strings this program feeds
it: an optional `0x`/`0X` prefix is stripped, then the longest prefix of hex
digits is read; `none` models the `NaN` result when no digit is present. -/
def parseIntHex (s : String) : Option Nat :=
  parseIntHexList s.data

/-- Lowercase hex digit character for a value below 16, as produced by
JavaScript `Number.prototype.toString(16)`. -/
def hexDigitChar (d : Nat) : Char :=
  if d < 10 then Char.ofNat (48 + d) else Char.ofNat (87 + d)

/-- Big-endian hex digit expansion accumulated onto `acc`. -/
def natToHexAux (n : Nat) (acc : List Char) : List Char :=
  if h : n = 0 then acc
  else natToHexAux (n / 16) (hexDigitChar (n % 16) :: acc)
termination_by n
decreasing_by
  exact Nat.div_lt_self (Nat.pos_of_ne_zero h) (by decide)

/-- Model of JavaScript `n.toString(16)` for a non-negative integer, used at
lines 99-100 to encode `fromBlock`/`toBlock`. -/
def natToHex (n : Nat) : String :=
  if n = 0 then "0" else String.mk (natToHexAux n [])

/-- Topic hash of the `PairCreated` event (line 237). -/
def pairCreatedTopic : String :=
  "0x0d3648bd0f6ba80134a33ba9275ac585d9d315f0ad8355cddefde31afa28d0e9"

/-- Topic hash of the `PoolCreated` event (line 239). -/
def poolCreatedTopic : String :=
  "0x783cca1c0412dd0d695e784568c96da2e9c22ff989357a2e8b1d9b2b4e6b7118"

/-- `getEventTopic` (lines 234-243): resolve an event name to its topic hash,
throwing on unknown names (modelled as `Except.error`). -/
def getEventTopic (eventName : String) : Except String String :=
  if eventName = "PairCreated" then Except.ok pairCreatedTopic
  else if eventName = "PoolCreated" then Except.ok poolCreatedTopic
  else Except.error ("Unsupported event: " ++ eventName)

/-- The event names `getEventTopic` recognizes. -/
def supportedEvents : List String := ["PairCreated", "PoolCreated"]

/-- `getRpcUrl` (lines 110-127): resolve a chain name to its RPC endpoint,
throwing on unknown chains (modelled as `Except.error`). The Alchemy API key
comes from the environment and is passed explicitly here. -/
def getRpcUrl (apiKey : String) (chain : String) : Except String String :=
  if chain = "celo" then
    Except.ok ("https://celo-mainnet.g.alchemy.com/v2/" ++ apiKey)
  else if chain = "coinbase_base" then
    Except.ok ("https://base-mainnet.g.alchemy.com/v2/" ++ apiKey)
  else if chain = "ethereum" then
    Except.ok ("https://eth-mainnet.g.alchemy.com/v2/" ++ apiKey)
  else if chain = "fantom" then
    Except.ok ("https://fantom-mainnet.g.alchemy.com/v2/" ++ apiKey)
  else if chain = "linea" then
    Except.ok ("https://linea-mainnet.g.alchemy.com/v2/" ++ apiKey)
  else if chain = "mantle" then
    Except.ok ("https://mantle-mainnet.g.alchemy.com/v2/" ++ apiKey)
  else Except.error ("Unsupported chain: " ++ chain)

/-- The chain names `getRpcUrl` recognizes. -/
def supportedChains : List String :=
  ["celo", "coinbase_base", "ethereum", "fantom", "linea", "mantle"]

/-- The in-memory `lastProcessedBlocks` object (line 20), as an association
list: the most recent binding for a key shadows earlier ones. -/
abbrev CursorStore := List (String × Nat)

/-- Property lookup on `lastProcessedBlocks`: `none` models `undefined`. -/
def findCursor : CursorStore → String → Option Nat
  | [], _ => none
  | (k, v) :: rest, key => if k = key then some v else findCursor rest key

/-- Property assignment on `lastProcessedBlocks` (line 230). -/
def setCursor (store : CursorStore) (key : String) (v : Nat) : CursorStore :=
  (key, v) :: store

/-- JavaScript truthiness of a looked-up cursor: `undefined` and `0` are
falsy, every other number is truthy (the condition at line 181). -/
def jsTruthy : Option Nat → Bool
  | none => false
  | some n => decide (n ≠ 0)

/-- The `fromBlock` computation at lines 181-183:
`lastProcessedBlocks[key] ? lastProcessedBlocks[key] + 1 : latestBlock`. -/
def computeFromBlock (cur : Option Nat) (latestBlock : Nat) : Nat :=
  if jsTruthy cur then cur.getD 0 + 1 else latestBlock

/-- The cursor key for an event under a strategy (lines 180-181):
the string `chain-factory_address-strategy`. -/
def cursorKey (event : Event) (strategy : String) : String :=
  event.chain ++ "-" ++ event.factory_address ++ "-" ++ strategy

/-- One `eth_getLogs` request as issued by `getLogs` (lines 87-108). -/
structure FetchCall where
  address : String
  topic : String
  fromBlock : Nat
  toBlock : Nat
deriving DecidableEq, Repr

/-- Observable outcome of processing one event (one body of the loop at
lines 179-231): the fetch calls issued, the sink inserts attempted with the
sink's per-record response, the cursor store after the body, and the
exception propagating out of the body, if any. -/
structure RunResult where
  calls : List FetchCall
  inserts : List (LogRecord × Option String)
  store : CursorStore
  err : Option String
deriving DecidableEq, Repr

/-- Normalization of one raw log entry into the record inserted into the
sink (the `logData` object built at lines 206-216). -/
def normalizeLog (entry : RawLogEntry) (event : Event) (strategy : String) :
    LogRecord :=
  { transaction_index := parseIntHex entry.transactionIndex
    transaction_hash := entry.transactionHash
    log_index := parseIntHex entry.logIndex
    removed := entry.removed
    block_number := parseIntHex entry.blockNumber
    block_hash := entry.blockHash
    exchange := event.exchange_name
    network := event.chain
    strategy := strategy }

/-- One iteration of the `for` loop in `processNetworkLogs` (lines 179-231)
for a single event. `fetch` is the `getLogs` oracle (errors model transport
or protocol failures); `sink` is the Supabase insert oracle, `some msg`
modelling a returned error object, which is logged and never thrown. -/
def processOneEvent (fetch : FetchCall → Except String (List RawLogEntry))
    (sink : LogRecord → Option String) (latestBlock : Nat) (strategy : String)
    (store : CursorStore) (event : Event) : RunResult :=
  let key := cursorKey event strategy
  let fromBlock := computeFromBlock (findCursor store key) latestBlock
  if fromBlock > latestBlock then
    { calls := [], inserts := [], store := store, err := none }
  else
    match getEventTopic event.event with
    | Except.error e => { calls := [], inserts := [], store := store, err := some e }
    | Except.ok topic =>
      let call : FetchCall :=
        { address := event.factory_address, topic := topic,
          fromBlock := fromBlock, toBlock := latestBlock }
      match fetch call with
      | Except.error e =>
        { calls := [call], inserts := [], store := store, err := some e }
      | Except.ok logs =>
        { calls := [call]
          inserts := logs.map (fun l =>
            let r := normalizeLog l event strategy
            (r, sink r))
          store := setCursor store key latestBlock
          err := none }

/-- `processNetworkLogs` (lines 173-232): the loop over a network's events
under one strategy. An exception thrown by a body aborts the remaining
events; cursor mutations made before the throw persist. -/
def processNetworkLogs (fetch : FetchCall → Except String (List RawLogEntry))
    (sink : LogRecord → Option String) (latestBlock : Nat) (strategy : String)
    (store : CursorStore) : List Event → RunResult
  | [] => { calls := [], inserts := [], store := store, err := none }
  | e :: rest =>
    let r := processOneEvent fetch sink latestBlock strategy store e
    match r.err with
    | some msg => { calls := r.calls, inserts := r.inserts, store := r.store, err := some msg }
    | none =>
      let r2 := processNetworkLogs fetch sink latestBlock strategy r.store rest
      { calls := r.calls ++ r2.calls, inserts := r.inserts ++ r2.inserts,
        store := r2.store, err := r2.err }

/-- One JSON-RPC request observable at the network level: either a
latest-block query (`getLatestBlockNumber`, lines 52-85) or a ranged log
query (`getLogs`, lines 87-108). -/
inductive RpcCall where
  | latestQuery (strategy : String)
  | logsQuery (call : FetchCall)
deriving DecidableEq, Repr

/-- One step of the `events.reduce` grouping at lines 132-138: append the
event to its chain's bucket, creating the bucket at the end on first sight
(JavaScript object keys enumerate in insertion order). -/
def insertGrouped : List (String × List Event) → Event → List (String × List Event)
  | [], e => [(e.chain, [e])]
  | (c, es) :: rest, e =>
    if c = e.chain then (c, es ++ [e]) :: rest
    else (c, es) :: insertGrouped rest e

/-- The `eventsByNetwork` grouping (lines 132-138). -/
def groupByChain (events : List Event) : List (String × List Event) :=
  events.foldl insertGrouped []

/-- Outcome of processing one network inside `processLogs` (lines 140-166):
the cursor store after it, the RPC calls attempted for that network, and the
exception propagating out, if any. -/
structure NetResult where
  store : CursorStore
  rpcCalls : List RpcCall
  err : Option String
deriving DecidableEq, Repr

/-- The body of the `for` loop in `processLogs` (lines 140-165) for one
network: resolve the endpoint, query the latest block under both strategies,
then run `processNetworkLogs` under each strategy. `latest url strategy` is
the `getLatestBlockNumber` oracle; an `Except.error` models a thrown
transport or protocol error. A latest-block query is recorded as attempted
even when it fails. -/
def processNetwork (latest : String → String → Except String Nat)
    (fetch : FetchCall → Except String (List RawLogEntry))
    (sink : LogRecord → Option String) (apiKey : String)
    (store : CursorStore) (chain : String) (networkEvents : List Event) :
    NetResult :=
  match getRpcUrl apiKey chain with
  | Except.error e => { store := store, rpcCalls := [], err := some e }
  | Except.ok url =>
    match latest url ("eth_blockNumber") with
    | Except.error e =>
      { store := store, rpcCalls := [RpcCall.latestQuery ("eth_blockNumber")],
        err := some e }
    | Except.ok latestBlockNumber =>
      match latest url ("eth_getBlockByNumber") with
      | Except.error e =>
        { store := store,
          rpcCalls := [RpcCall.latestQuery ("eth_blockNumber"),
                       RpcCall.latestQuery ("eth_getBlockByNumber")],
          err := some e }
      | Except.ok latestFinalized =>
        let base := [RpcCall.latestQuery ("eth_blockNumber"),
                     RpcCall.latestQuery ("eth_getBlockByNumber")]
        let r1 := processNetworkLogs fetch sink latestBlockNumber
          ("eth_blockNumber") store networkEvents
        match r1.err with
        | some e =>
          { store := r1.store,
            rpcCalls := base ++ r1.calls.map RpcCall.logsQuery, err := some e }
        | none =>
          let r2 := processNetworkLogs fetch sink latestFinalized
            ("eth_getBlockByNumber") r1.store networkEvents
          { store := r2.store,
            rpcCalls := base ++ (r1.calls ++ r2.calls).map RpcCall.logsQuery,
            err := r2.err }

/-- The `for` loop of `processLogs` over the grouped networks (line 140):
an exception in one network's processing aborts the remaining networks of
this iteration (the `try` wraps the whole loop). -/
def processNetworks (latest : String → String → Except String Nat)
    (fetch : FetchCall → Except String (List RawLogEntry))
    (sink : LogRecord → Option String) (apiKey : String)
    (store : CursorStore) :
    List (String × List Event) → NetResult
  | [] => { store := store, rpcCalls := [], err := none }
  | (chain, nes) :: rest =>
    let r := processNetwork latest fetch sink apiKey store chain nes
    match r.err with
    | some e => { store := r.store, rpcCalls := r.rpcCalls, err := some e }
    | none =>
      let r2 := processNetworks latest fetch sink apiKey r.store rest
      { store := r2.store, rpcCalls := r.rpcCalls ++ r2.rpcCalls, err := r2.err }

/-- Outcome of one whole `processLogs` call: the store afterwards, the RPC
calls of the iteration, and the error that was caught and logged at lines
167-170, if any. `processLogs` itself never throws. -/
structure IterResult where
  store : CursorStore
  rpcCalls : List RpcCall
  caught : Option String
deriving DecidableEq, Repr

/-- `processLogs` (lines 129-171): group events by network, process each
network, and catch any error, logging it instead of rethrowing. -/
def processLogs (latest : String → String → Except String Nat)
    (fetch : FetchCall → Except String (List RawLogEntry))
    (sink : LogRecord → Option String) (apiKey : String)
    (events : List Event) (store : CursorStore) : IterResult :=
  let r := processNetworks latest fetch sink apiKey store (groupByChain events)
  { store := r.store, rpcCalls := r.rpcCalls, caught := r.err }

/-- `runContinuously` (lines 245-253) truncated to `n` iterations of the
`while (true)` loop: the oracles may behave differently on every iteration
(indexed by the iteration counter), and each iteration runs `processLogs`
on the store the previous iteration left behind. -/
def runContinuouslyN (latest : Nat → String → String → Except String Nat)
    (fetch : Nat → FetchCall → Except String (List RawLogEntry))
    (sink : Nat → LogRecord → Option String) (apiKey : String)
    (events : List Event) : Nat → CursorStore → CursorStore
  | 0, store => store
  | n + 1, store =>
    (processLogs (latest n) (fetch n) (sink n) apiKey events
      (runContinuouslyN latest fetch sink apiKey events n store)).store

/-- The first polling strategy name (line 54). -/
def stratBN : String := "eth_blockNumber"

/-- The second polling strategy name (line 62). -/
def stratFinal : String := "eth_getBlockByNumber"

/-- A sample tracked target, as in the spec's scenarios. -/
def sampleEvent : Event :=
  { chain := "ethereum", factory_address := "0xABC",
    exchange_name := "uniswap", event := "PairCreated" }

/-- A sample target with an event name the catalog does not know. -/
def unknownEvent : Event :=
  { chain := "ethereum", factory_address := "0xABC",
    exchange_name := "uniswap", event := "Transfer" }

/-- A fetch oracle whose every ranged log query succeeds with no logs. -/
def emptyFetch : FetchCall → Except String (List RawLogEntry) :=
  fun _ => Except.ok []

/-- A sink oracle that accepts every record. -/
def okSink : LogRecord → Option String :=
  fun _ => none

/-- A sample raw log entry whose block number field is the hex string
`0x64` (decimal 100). -/
def sampleRaw : RawLogEntry :=
  { transactionIndex := "0x1", transactionHash := "0xt1",
    logIndex := "0x0", removed := false,
    blockNumber := "0x64", blockHash := "0xb1" }

/-- A fetch oracle whose every ranged log query returns `sampleRaw` alone. -/
def oneLogFetch : FetchCall → Except String (List RawLogEntry) :=
  fun _ => Except.ok [sampleRaw]

/-- Three raw log entries distinguished by their log index. -/
def threeRaw : List RawLogEntry :=
  [{ sampleRaw with logIndex := "0x0" },
   { sampleRaw with logIndex := "0x1" },
   { sampleRaw with logIndex := "0x2" }]

/-- A fetch oracle whose every ranged log query returns the three entries
of `threeRaw`. -/
def threeLogFetch : FetchCall → Except String (List RawLogEntry) :=
  fun _ => Except.ok threeRaw

/-- A sink oracle that rejects the record with log index 1 and accepts the
rest: the middle record of a `threeRaw` batch fails to insert. -/
def failMiddleSink : LogRecord → Option String :=
  fun r => if r.log_index = some 1 then some ("insert failed") else none

/-- The cursor key of `sampleEvent` under the `eth_blockNumber` strategy. -/
def sampleKeyBN : String := cursorKey sampleEvent stratBN

/-- A raw log entry whose numeric fields carry the canonical hex encoding
of the given integers, as an RPC node would produce them. -/
def encodeRaw (a : Nat) (th : String) (b : Nat) (rm : Bool) (c : Nat)
    (bh : String) : RawLogEntry :=
  { transactionIndex := "0x" ++ natToHex a, transactionHash := th,
    logIndex := "0x" ++ natToHex b, removed := rm,
    blockNumber := "0x" ++ natToHex c, blockHash := bh }

/-! ### Hex encoding and decoding lemmas -/

theorem hexDigitVal_hexDigitChar : ∀ d : Nat, d < 16 →
    hexDigitVal (hexDigitChar d) = some d := by
  decide

theorem natToHexAux_eq (n : Nat) (acc : List Char) :
    natToHexAux n acc =
      if n = 0 then acc
      else natToHexAux (n / 16) (hexDigitChar (n % 16) :: acc) := by
  rw [natToHexAux]
  by_cases h : n = 0 <;> simp [h]

theorem natToHexAux_append (n : Nat) : ∀ acc : List Char,
    natToHexAux n acc = natToHexAux n [] ++ acc := by
  induction n using Nat.strong_induction_on with
  | _ n ih =>
    intro acc
    by_cases h : n = 0
    · subst h
      rw [natToHexAux_eq 0 acc, natToHexAux_eq 0 []]
      simp
    · rw [natToHexAux_eq n acc, natToHexAux_eq n []]
      simp only [if_neg h]
      have hlt : n / 16 < n := Nat.div_lt_self (Nat.pos_of_ne_zero h) (by decide)
      rw [ih _ hlt (hexDigitChar (n % 16) :: acc), ih _ hlt [hexDigitChar (n % 16)]]
      simp

theorem natToHexAux_allHex (n : Nat) : ∀ acc : List Char,
    (∀ c ∈ acc, (hexDigitVal c).isSome) →
    ∀ c ∈ natToHexAux n acc, (hexDigitVal c).isSome := by
  induction n using Nat.strong_induction_on with
  | _ n ih =>
    intro acc hacc
    by_cases h : n = 0
    · rw [natToHexAux_eq]
      simp only [if_pos h]
      exact hacc
    · rw [natToHexAux_eq]
      simp only [if_neg h]
      have hlt : n / 16 < n := Nat.div_lt_self (Nat.pos_of_ne_zero h) (by decide)
      refine ih _ hlt _ ?_
      intro c hc
      rcases List.mem_cons.mp hc with hc | hc
      · subst hc
        rw [hexDigitVal_hexDigitChar _ (Nat.mod_lt _ (by decide))]
        rfl
      · exact hacc c hc

theorem natToHexAux_ne_nil (n : Nat) (h : n ≠ 0) : natToHexAux n [] ≠ [] := by
  rw [natToHexAux_eq]
  simp only [if_neg h]
  rw [natToHexAux_append]
  simp

theorem parseHexAux_snoc (c : Char) (d : Nat) (hc : hexDigitVal c = some d) :
    ∀ (xs : List Char) (a : Nat), (∀ x ∈ xs, (hexDigitVal x).isSome) →
    parseHexAux (xs ++ [c]) a = 16 * parseHexAux xs a + d := by
  intro xs
  induction xs with
  | nil =>
    intro a _
    simp [parseHexAux, hc]
  | cons x xs ihx =>
    intro a hall
    have hx : (hexDigitVal x).isSome := hall x (by simp)
    obtain ⟨dx, hdx⟩ := Option.isSome_iff_exists.mp hx
    simp only [List.cons_append, parseHexAux, hdx]
    exact ihx _ (fun y hy => hall y (by simp [hy]))

theorem parseHexAux_natToHexAux : ∀ n : Nat, n ≠ 0 →
    parseHexAux (natToHexAux n []) 0 = n := by
  intro n
  induction n using Nat.strong_induction_on with
  | _ n ih =>
    intro h
    rw [natToHexAux_eq]
    simp only [if_neg h]
    rw [natToHexAux_append]
    have hd : hexDigitVal (hexDigitChar (n % 16)) = some (n % 16) :=
      hexDigitVal_hexDigitChar _ (Nat.mod_lt _ (by decide))
    by_cases h16 : n / 16 = 0
    · rw [h16, natToHexAux_eq]
      simp only [if_pos rfl, List.nil_append]
      simp [parseHexAux, hd]
      omega
    · have hlt : n / 16 < n := Nat.div_lt_self (Nat.pos_of_ne_zero h) (by decide)
      rw [parseHexAux_snoc _ _ hd _ _ (natToHexAux_allHex _ _ (by simp))]
      rw [ih _ hlt h16]
      omega

theorem parseIntHex_natToHex (n : Nat) :
    parseIntHex ("0x" ++ natToHex n) = some n := by
  by_cases h : n = 0
  · subst h
    decide
  · have hdata : ("0x" ++ natToHex n).data = '0' :: 'x' :: natToHexAux n [] := by
      rw [String.data_append, natToHex]
      simp only [if_neg h]
      rfl
    rw [parseIntHex, hdata]
    rcases hcs : natToHexAux n [] with _ | ⟨c0, rest⟩
    · exact absurd hcs (natToHexAux_ne_nil n h)
    · have hc0 : (hexDigitVal c0).isSome := by
        refine natToHexAux_allHex n [] (by simp) c0 ?_
        rw [hcs]
        simp
      have hval : parseHexAux (c0 :: rest) 0 = n := by
        rw [← hcs]
        exact parseHexAux_natToHexAux n h
      simp [parseIntHexList, stripHexPrefix, hc0, hval]

/-! ### Cursor store lemmas -/

theorem findCursor_setCursor_self (store : CursorStore) (k : String) (v : Nat) :
    findCursor (setCursor store k v) k = some v := by
  simp [setCursor, findCursor]

theorem findCursor_setCursor_ne (store : CursorStore) (k k' : String) (v : Nat)
    (h : k ≠ k') : findCursor (setCursor store k v) k' = findCursor store k' := by
  simp [setCursor, findCursor, h]

/-! ### Shape lemmas for one loop body of `processNetworkLogs` -/

theorem processOneEvent_skip (fetch : FetchCall → Except String (List RawLogEntry))
    (sink : LogRecord → Option String) (latestBlock : Nat) (strategy : String)
    (store : CursorStore) (ev : Event)
    (h : latestBlock < computeFromBlock (findCursor store (cursorKey ev strategy)) latestBlock) :
    processOneEvent fetch sink latestBlock strategy store ev =
      { calls := [], inserts := [], store := store, err := none } := by
  simp only [processOneEvent]
  rw [if_pos h]

theorem processOneEvent_fetched (fetch : FetchCall → Except String (List RawLogEntry))
    (sink : LogRecord → Option String) (latestBlock : Nat) (strategy : String)
    (store : CursorStore) (ev : Event) (topic : String) (logs : List RawLogEntry)
    (hfrom : computeFromBlock (findCursor store (cursorKey ev strategy)) latestBlock ≤ latestBlock)
    (htopic : getEventTopic ev.event = Except.ok topic)
    (hfetch : fetch ⟨ev.factory_address, topic, computeFromBlock (findCursor store (cursorKey ev strategy)) latestBlock, latestBlock⟩ = Except.ok logs) :
    processOneEvent fetch sink latestBlock strategy store ev =
      { calls := [⟨ev.factory_address, topic, computeFromBlock (findCursor store (cursorKey ev strategy)) latestBlock, latestBlock⟩],
        inserts := logs.map (fun l =>
          (normalizeLog l ev strategy, sink (normalizeLog l ev strategy))),
        store := setCursor store (cursorKey ev strategy) latestBlock,
        err := none } := by
  simp only [processOneEvent, htopic, hfetch]
  rw [if_neg (not_lt.mpr hfrom)]

theorem processOneEvent_topicError
    (fetch : FetchCall → Except String (List RawLogEntry))
    (sink : LogRecord → Option String) (latestBlock : Nat) (strategy : String)
    (store : CursorStore) (ev : Event) (e : String)
    (hfrom : computeFromBlock (findCursor store (cursorKey ev strategy)) latestBlock ≤ latestBlock)
    (htopic : getEventTopic ev.event = Except.error e) :
    processOneEvent fetch sink latestBlock strategy store ev =
      { calls := [], inserts := [], store := store, err := some e } := by
  simp only [processOneEvent, htopic]
  rw [if_neg (not_lt.mpr hfrom)]

theorem processOneEvent_fetchError
    (fetch : FetchCall → Except String (List RawLogEntry))
    (sink : LogRecord → Option String) (latestBlock : Nat) (strategy : String)
    (store : CursorStore) (ev : Event) (topic e : String)
    (hfrom : computeFromBlock (findCursor store (cursorKey ev strategy)) latestBlock ≤ latestBlock)
    (htopic : getEventTopic ev.event = Except.ok topic)
    (hfetch : fetch ⟨ev.factory_address, topic, computeFromBlock (findCursor store (cursorKey ev strategy)) latestBlock, latestBlock⟩ = Except.error e) :
    processOneEvent fetch sink latestBlock strategy store ev =
      { calls := [⟨ev.factory_address, topic, computeFromBlock (findCursor store (cursorKey ev strategy)) latestBlock, latestBlock⟩],
        inserts := [], store := store, err := some e } := by
  simp only [processOneEvent, htopic, hfetch]
  rw [if_neg (not_lt.mpr hfrom)]

theorem processOneEvent_calls_bounded
    (fetch : FetchCall → Except String (List RawLogEntry))
    (sink : LogRecord → Option String) (latestBlock : Nat) (strategy : String)
    (store : CursorStore) (ev : Event) :
    ∀ c ∈ (processOneEvent fetch sink latestBlock strategy store ev).calls,
      c.fromBlock ≤ c.toBlock ∧ c.toBlock = latestBlock := by
  intro c hc
  by_cases h : computeFromBlock (findCursor store (cursorKey ev strategy)) latestBlock > latestBlock
  · rw [processOneEvent_skip fetch sink latestBlock strategy store ev h] at hc
    simp at hc
  · have hfrom := not_lt.mp h
    rcases htopic : getEventTopic ev.event with e | topic
    · rw [processOneEvent_topicError fetch sink latestBlock strategy store ev e hfrom htopic] at hc
      simp at hc
    · rcases hfetch : fetch ⟨ev.factory_address, topic, computeFromBlock (findCursor store (cursorKey ev strategy)) latestBlock, latestBlock⟩ with e | logs
      · rw [processOneEvent_fetchError fetch sink latestBlock strategy store ev topic e hfrom htopic hfetch] at hc
        simp at hc
        subst hc
        exact ⟨hfrom, rfl⟩
      · rw [processOneEvent_fetched fetch sink latestBlock strategy store ev topic logs hfrom htopic hfetch] at hc
        simp at hc
        subst hc
        exact ⟨hfrom, rfl⟩

theorem processNetworkLogs_calls_bounded
    (fetch : FetchCall → Except String (List RawLogEntry))
    (sink : LogRecord → Option String) (latestBlock : Nat) (strategy : String) :
    ∀ (events : List Event) (store : CursorStore),
    ∀ c ∈ (processNetworkLogs fetch sink latestBlock strategy store events).calls,
      c.fromBlock ≤ c.toBlock := by
  intro events
  induction events with
  | nil =>
    intro store c hc
    simp [processNetworkLogs] at hc
  | cons e rest ih =>
    intro store c hc
    simp only [processNetworkLogs] at hc
    rcases herr : (processOneEvent fetch sink latestBlock strategy store e).err with _ | msg <;>
      rw [herr] at hc <;> simp only [] at hc
    · simp only [List.mem_append] at hc
      rcases hc with hc | hc
      · exact (processOneEvent_calls_bounded fetch sink latestBlock strategy store e c hc).1
      · exact ih _ c hc
    · exact (processOneEvent_calls_bounded fetch sink latestBlock strategy store e c hc).1

/-- Claim C1: after any poll attempt for a tracking key that reaches the
fetch step (not skipped) and whose fetch call returns, the cursor stored for
that key equals the latest block observed on that iteration, whether or not
the fetch returned any logs. -/
theorem C1_cursor_advanced_to_latest
    (fetch : FetchCall → Except String (List RawLogEntry))
    (sink : LogRecord → Option String) (latestBlock : Nat) (strategy : String)
    (store : CursorStore) (ev : Event) (topic : String) (logs : List RawLogEntry)
    (hfrom : computeFromBlock (findCursor store (cursorKey ev strategy)) latestBlock ≤ latestBlock)
    (htopic : getEventTopic ev.event = Except.ok topic)
    (hfetch : fetch ⟨ev.factory_address, topic, computeFromBlock (findCursor store (cursorKey ev strategy)) latestBlock, latestBlock⟩ = Except.ok logs) :
    findCursor (processOneEvent fetch sink latestBlock strategy store ev).store
      (cursorKey ev strategy) = some latestBlock := by
  rw [processOneEvent_fetched fetch sink latestBlock strategy store ev topic logs hfrom htopic hfetch]
  exact findCursor_setCursor_self store (cursorKey ev strategy) latestBlock

/-- Witness for C1: `sampleEvent`, no prior cursor, latest block 100, a
fetch that returns zero logs: the cursor still becomes 100. -/
theorem C1_cursor_advanced_to_latest_witness :
    findCursor (processOneEvent emptyFetch okSink 100 stratBN [] sampleEvent).store
      (cursorKey sampleEvent stratBN) = some 100 :=
  C1_cursor_advanced_to_latest emptyFetch okSink 100 stratBN [] sampleEvent
    pairCreatedTopic [] (by decide) (by rfl) rfl

/-- Claim C2: when the computed fromBlock exceeds the observed latest block,
no fetch call is issued and the cursor store is unchanged; and every fetch
call actually issued by `processNetworkLogs` satisfies fromBlock ≤ toBlock,
so the reversed-range case of the log query is never exercised. -/
theorem C2_skip_no_fetch_and_ranges_ordered
    (fetch : FetchCall → Except String (List RawLogEntry))
    (sink : LogRecord → Option String) (latestBlock : Nat) (strategy : String)
    (store : CursorStore) (ev : Event) :
    (latestBlock < computeFromBlock (findCursor store (cursorKey ev strategy)) latestBlock →
      processOneEvent fetch sink latestBlock strategy store ev =
        { calls := [], inserts := [], store := store, err := none }) ∧
    (∀ (events : List Event) (store' : CursorStore),
      ∀ c ∈ (processNetworkLogs fetch sink latestBlock strategy store' events).calls,
        c.fromBlock ≤ c.toBlock) :=
  ⟨processOneEvent_skip fetch sink latestBlock strategy store ev,
   processNetworkLogs_calls_bounded fetch sink latestBlock strategy⟩

/-- Witness for C2: a cursor at 200 with latest block 10 makes the poll a
no-op, and the single call a fresh run issues has an ordered range. -/
theorem C2_skip_no_fetch_and_ranges_ordered_witness :
    processOneEvent emptyFetch okSink 10 stratBN [(sampleKeyBN, 200)] sampleEvent =
      { calls := [], inserts := [], store := [(sampleKeyBN, 200)], err := none } :=
  (C2_skip_no_fetch_and_ranges_ordered emptyFetch okSink 10 stratBN
    [(sampleKeyBN, 200)] sampleEvent).1 (by decide)

/-- Claim C10: the cursor presence check is by JavaScript truthiness, so a
stored cursor of 0 is treated as if no cursor were set: the next poll
computes fromBlock = latestBlock rather than cursor + 1 = 1. -/
theorem C10_zero_cursor_treated_as_absent
    (store : CursorStore) (ev : Event) (strategy : String) (latestBlock : Nat)
    (h : findCursor store (cursorKey ev strategy) = some 0) :
    computeFromBlock (findCursor store (cursorKey ev strategy)) latestBlock
      = latestBlock := by
  rw [h]
  simp [computeFromBlock, jsTruthy]

/-- Witness for C10: a stored cursor of 0 with latest block 5 yields
fromBlock 5, not 1. -/
theorem C10_zero_cursor_treated_as_absent_witness :
    computeFromBlock (findCursor [(sampleKeyBN, 0)] (cursorKey sampleEvent stratBN)) 5 = 5 :=
  C10_zero_cursor_treated_as_absent [(sampleKeyBN, 0)] sampleEvent stratBN 5 (by decide)

/-- Claim C5: normalization of a raw log entry is a pure, deterministic,
lossless function of the entry, the target and the strategy: the hex
transactionIndex, logIndex and blockNumber fields are decoded to integers,
the removed and hash fields pass through unchanged, and exchange, network
and strategy come from the target and the current strategy. In particular,
on canonically hex-encoded numeric fields the decoding recovers exactly the
encoded integers. -/
theorem C5_normalization_pure_and_lossless (entry : RawLogEntry) (ev : Event)
    (strat : String) :
    normalizeLog entry ev strat =
      { transaction_index := parseIntHex entry.transactionIndex,
        transaction_hash := entry.transactionHash,
        log_index := parseIntHex entry.logIndex,
        removed := entry.removed,
        block_number := parseIntHex entry.blockNumber,
        block_hash := entry.blockHash,
        exchange := ev.exchange_name,
        network := ev.chain,
        strategy := strat } ∧
    (∀ (a b c : Nat) (th bh : String) (rm : Bool),
      normalizeLog (encodeRaw a th b rm c bh) ev strat =
        { transaction_index := some a,
          transaction_hash := th,
          log_index := some b,
          removed := rm,
          block_number := some c,
          block_hash := bh,
          exchange := ev.exchange_name,
          network := ev.chain,
          strategy := strat }) := by
  constructor
  · rfl
  · intro a b c th bh rm
    simp [normalizeLog, encodeRaw, parseIntHex_natToHex]

/-- Claim C6: when a fetch returns several records and the sink fails for
some of them, every record in the batch is still attempted (the attempted
inserts are exactly the normalized records with the sink's per-record
responses), the cursor still advances to the latest block, and no error
escapes the loop body. -/
theorem C6_sink_failure_does_not_abort
    (fetch : FetchCall → Except String (List RawLogEntry))
    (sink : LogRecord → Option String) (latestBlock : Nat) (strategy : String)
    (store : CursorStore) (ev : Event) (topic : String) (logs : List RawLogEntry)
    (hfrom : computeFromBlock (findCursor store (cursorKey ev strategy)) latestBlock ≤ latestBlock)
    (htopic : getEventTopic ev.event = Except.ok topic)
    (hfetch : fetch ⟨ev.factory_address, topic, computeFromBlock (findCursor store (cursorKey ev strategy)) latestBlock, latestBlock⟩ = Except.ok logs) :
    (processOneEvent fetch sink latestBlock strategy store ev).inserts =
      logs.map (fun l => (normalizeLog l ev strategy, sink (normalizeLog l ev strategy))) ∧
    findCursor (processOneEvent fetch sink latestBlock strategy store ev).store
      (cursorKey ev strategy) = some latestBlock ∧
    (processOneEvent fetch sink latestBlock strategy store ev).err = none := by
  rw [processOneEvent_fetched fetch sink latestBlock strategy store ev topic logs hfrom htopic hfetch]
  exact ⟨rfl, findCursor_setCursor_self store (cursorKey ev strategy) latestBlock, rfl⟩

/-- Witness for C6: three records, the sink rejects the middle one; all
three inserts are attempted (the middle reports the failure) and the cursor
still advances to 100. -/
theorem C6_sink_failure_does_not_abort_witness :
    (processOneEvent threeLogFetch failMiddleSink 100 stratBN [] sampleEvent).inserts.map
        (fun p => p.2) = [none, some ("insert failed"), none] ∧
    findCursor (processOneEvent threeLogFetch failMiddleSink 100 stratBN [] sampleEvent).store
      (cursorKey sampleEvent stratBN) = some 100 ∧
    (processOneEvent threeLogFetch failMiddleSink 100 stratBN [] sampleEvent).err = none := by
  have h := C6_sink_failure_does_not_abort threeLogFetch failMiddleSink 100 stratBN
    [] sampleEvent pairCreatedTopic threeRaw (by decide) (by rfl) rfl
  refine ⟨?_, h.2.1, h.2.2⟩
  rw [h.1]
  decide

/-- Claim C7: for a target whose event name is not recognized, topic
resolution fails with the unsupported-event error, and no ranged log query
is ever issued to the chain client for that target. -/
theorem C7_unknown_event_never_fetches (ev : Event)
    (h : ev.event ∉ supportedEvents) :
    getEventTopic ev.event = Except.error ("Unsupported event: " ++ ev.event) ∧
    ∀ (fetch : FetchCall → Except String (List RawLogEntry))
      (sink : LogRecord → Option String) (latestBlock : Nat) (strategy : String)
      (store : CursorStore),
      (processOneEvent fetch sink latestBlock strategy store ev).calls = [] := by
  simp only [supportedEvents, List.mem_cons, List.not_mem_nil, or_false, not_or] at h
  obtain ⟨h1, h2⟩ := h
  have htopic : getEventTopic ev.event =
      Except.error ("Unsupported event: " ++ ev.event) := by
    simp [getEventTopic, h1, h2]
  refine ⟨htopic, ?_⟩
  intro fetch sink latestBlock strategy store
  by_cases hskip : latestBlock < computeFromBlock (findCursor store (cursorKey ev strategy)) latestBlock
  · rw [processOneEvent_skip fetch sink latestBlock strategy store ev hskip]
  · rw [processOneEvent_topicError fetch sink latestBlock strategy store ev
      ("Unsupported event: " ++ ev.event) (not_lt.mp hskip) htopic]

/-- Witness for C7: the event name Transfer is not in the catalog; topic
resolution errors and a run issues no fetch call. -/
theorem C7_unknown_event_never_fetches_witness :
    getEventTopic unknownEvent.event =
      Except.error ("Unsupported event: " ++ unknownEvent.event) ∧
    (processOneEvent emptyFetch okSink 5 stratBN [] unknownEvent).calls = [] := by
  have h := C7_unknown_event_never_fetches unknownEvent (by decide)
  exact ⟨h.1, h.2 emptyFetch okSink 5 stratBN []⟩

theorem processOneEvent_store_shape
    (fetch : FetchCall → Except String (List RawLogEntry))
    (sink : LogRecord → Option String) (latestBlock : Nat) (strategy : String)
    (store : CursorStore) (ev : Event) :
    (processOneEvent fetch sink latestBlock strategy store ev).store = store ∨
    ((processOneEvent fetch sink latestBlock strategy store ev).store =
        setCursor store (cursorKey ev strategy) latestBlock ∧
      computeFromBlock (findCursor store (cursorKey ev strategy)) latestBlock ≤ latestBlock) := by
  by_cases hskip : latestBlock < computeFromBlock (findCursor store (cursorKey ev strategy)) latestBlock
  · rw [processOneEvent_skip fetch sink latestBlock strategy store ev hskip]
    exact Or.inl rfl
  · have hfrom := not_lt.mp hskip
    rcases htopic : getEventTopic ev.event with e | topic
    · rw [processOneEvent_topicError fetch sink latestBlock strategy store ev e hfrom htopic]
      exact Or.inl rfl
    · rcases hfetch : fetch ⟨ev.factory_address, topic, computeFromBlock (findCursor store (cursorKey ev strategy)) latestBlock, latestBlock⟩ with e | logs
      · rw [processOneEvent_fetchError fetch sink latestBlock strategy store ev topic e hfrom htopic hfetch]
        exact Or.inl rfl
      · rw [processOneEvent_fetched fetch sink latestBlock strategy store ev topic logs hfrom htopic hfetch]
        exact Or.inr ⟨rfl, hfrom⟩

theorem processOneEvent_calls_shape
    (fetch : FetchCall → Except String (List RawLogEntry))
    (sink : LogRecord → Option String) (latestBlock : Nat) (strategy : String)
    (store : CursorStore) (ev : Event) :
    ∀ c ∈ (processOneEvent fetch sink latestBlock strategy store ev).calls,
      c.fromBlock = computeFromBlock (findCursor store (cursorKey ev strategy)) latestBlock ∧
      c.toBlock = latestBlock := by
  intro c hc
  by_cases hskip : latestBlock < computeFromBlock (findCursor store (cursorKey ev strategy)) latestBlock
  · rw [processOneEvent_skip fetch sink latestBlock strategy store ev hskip] at hc
    simp at hc
  · have hfrom := not_lt.mp hskip
    rcases htopic : getEventTopic ev.event with e | topic
    · rw [processOneEvent_topicError fetch sink latestBlock strategy store ev e hfrom htopic] at hc
      simp at hc
    · rcases hfetch : fetch ⟨ev.factory_address, topic, computeFromBlock (findCursor store (cursorKey ev strategy)) latestBlock, latestBlock⟩ with e | logs
      · rw [processOneEvent_fetchError fetch sink latestBlock strategy store ev topic e hfrom htopic hfetch] at hc
        simp at hc
        subst hc
        exact ⟨rfl, rfl⟩
      · rw [processOneEvent_fetched fetch sink latestBlock strategy store ev topic logs hfrom htopic hfetch] at hc
        simp at hc
        subst hc
        exact ⟨rfl, rfl⟩

/-- Claim C3 is false on the code as stated: a poll at latest block 0 sets
the cursor for the key (to 0), yet the next poll at latest block 5 computes
fromBlock = 5 = latestBlock rather than cursor + 1 = 1, because the cursor
presence check is by truthiness and 0 is falsy. -/
theorem C3_counterexample :
    findCursor (processOneEvent emptyFetch okSink 0 stratBN [] sampleEvent).store
      (cursorKey sampleEvent stratBN) = some 0 ∧
    (processOneEvent emptyFetch okSink 5 stratBN
        (processOneEvent emptyFetch okSink 0 stratBN [] sampleEvent).store
        sampleEvent).calls.map (fun c => c.fromBlock) = [5] ∧
    (5 : Nat) ≠ 0 + 1 := by
  decide

/-- Claim C3 amended: on each poll tick the engine computes fromBlock as
cursor + 1 when a nonzero cursor is stored, and as latestBlock when no
cursor is stored or the stored cursor is 0 — both for the fromBlock
computation itself and for every range actually fetched by a loop body.
The claim's scenarios hold: with no prior cursor and latest block 100 the
first fetched range is [100, 100], the record normalized from a raw entry
with blockNumber 0x64 has block number 100, and the cursor becomes 100; a
second poll of the same key at latest block 105 fetches [101, 105]. -/
theorem C3_amended_fromBlock_rule :
    (∀ latestBlock : Nat, computeFromBlock none latestBlock = latestBlock) ∧
    (∀ latestBlock c : Nat, 0 < c →
      computeFromBlock (some c) latestBlock = c + 1) ∧
    (∀ latestBlock : Nat, computeFromBlock (some 0) latestBlock = latestBlock) ∧
    ((processOneEvent oneLogFetch okSink 100 stratBN [] sampleEvent).calls.map
        (fun c => (c.fromBlock, c.toBlock)) = [(100, 100)] ∧
      (processOneEvent oneLogFetch okSink 100 stratBN [] sampleEvent).inserts.map
        (fun p => p.1.block_number) = [some 100] ∧
      findCursor (processOneEvent oneLogFetch okSink 100 stratBN [] sampleEvent).store
        sampleKeyBN = some 100) ∧
    (processOneEvent oneLogFetch okSink 105 stratBN
        (processOneEvent oneLogFetch okSink 100 stratBN [] sampleEvent).store
        sampleEvent).calls.map (fun c => (c.fromBlock, c.toBlock)) = [(101, 105)] ∧
    (∀ (fetch : FetchCall → Except String (List RawLogEntry))
      (sink : LogRecord → Option String) (latestBlock : Nat) (strategy : String)
      (store : CursorStore) (ev : Event),
      ∀ call ∈ (processOneEvent fetch sink latestBlock strategy store ev).calls,
        (findCursor store (cursorKey ev strategy) = none →
          call.fromBlock = latestBlock) ∧
        (findCursor store (cursorKey ev strategy) = some 0 →
          call.fromBlock = latestBlock) ∧
        (∀ c : Nat, findCursor store (cursorKey ev strategy) = some c → 0 < c →
          call.fromBlock = c + 1)) := by
  refine ⟨fun l => rfl, ?_, fun l => rfl, by decide, by decide, ?_⟩
  · intro l c hc
    simp [computeFromBlock, jsTruthy, hc.ne']
  · intro fetch sink latestBlock strategy store ev call hcall
    have h1 := processOneEvent_calls_shape fetch sink latestBlock strategy store ev call hcall
    refine ⟨?_, ?_, ?_⟩
    · intro hn
      rw [h1.1, hn]
      rfl
    · intro h0
      rw [h1.1, h0]
      rfl
    · intro c hc hpos
      rw [h1.1, hc]
      simp [computeFromBlock, jsTruthy, hpos.ne']

/-- Witness for the amended C3: a stored nonzero cursor 7 at latest block
100 yields fromBlock 8, and a concrete run with that cursor fetches a range
starting at 8. -/
theorem C3_amended_fromBlock_rule_witness :
    0 < 7 ∧ computeFromBlock (some 7) 100 = 7 + 1 ∧
    (processOneEvent emptyFetch okSink 100 stratBN [(sampleKeyBN, 7)]
      sampleEvent).calls.map (fun c => c.fromBlock) = [7 + 1] :=
  ⟨by decide, C3_amended_fromBlock_rule.2.1 100 7 (by decide), by decide⟩

/-- Claim C4 is false on the code as stated: with latest block 0 observed on
two consecutive polls of the same key, both polls fetch the range [0, 0] —
the second fetched range does not start above the first range's end —
because the cursor value 0 written by the first poll is treated as absent. -/
theorem C4_counterexample :
    (processOneEvent emptyFetch okSink 0 stratBN [] sampleEvent).calls.map
      (fun c => (c.fromBlock, c.toBlock)) = [(0, 0)] ∧
    (processOneEvent emptyFetch okSink 0 stratBN
        (processOneEvent emptyFetch okSink 0 stratBN [] sampleEvent).store
        sampleEvent).calls.map (fun c => (c.fromBlock, c.toBlock)) = [(0, 0)] ∧
    ¬ (∀ c1 ∈ (processOneEvent emptyFetch okSink 0 stratBN [] sampleEvent).calls,
        ∀ c2 ∈ (processOneEvent emptyFetch okSink 0 stratBN
          (processOneEvent emptyFetch okSink 0 stratBN [] sampleEvent).store
          sampleEvent).calls,
        c1.toBlock < c2.fromBlock) := by
  decide

/-- Claim C4 amended: across a poll body the cursor stored for any key never
decreases; and whenever the stored cursor for the processed key is nonzero,
every range fetched for that key starts at cursor + 1, strictly above the
previous range's end. (Strict increase of fetched ranges can only fail
through a stored cursor of 0, which the truthiness check treats as absent.) -/
theorem C4_amended_cursor_monotone_ranges_increasing
    (fetch : FetchCall → Except String (List RawLogEntry))
    (sink : LogRecord → Option String) (latestBlock : Nat) (strategy : String)
    (store : CursorStore) (ev : Event) :
    (∀ (k : String) (c : Nat), findCursor store k = some c →
      ∃ c', findCursor (processOneEvent fetch sink latestBlock strategy store ev).store k
          = some c' ∧ c ≤ c') ∧
    (∀ c : Nat, findCursor store (cursorKey ev strategy) = some c → 0 < c →
      ∀ call ∈ (processOneEvent fetch sink latestBlock strategy store ev).calls,
        call.fromBlock = c + 1 ∧ call.toBlock = latestBlock ∧ c < call.fromBlock) := by
  constructor
  · intro k c hc
    rcases processOneEvent_store_shape fetch sink latestBlock strategy store ev with
      hst | ⟨hst, hle⟩
    · exact ⟨c, by rw [hst]; exact hc, le_refl c⟩
    · by_cases hk : cursorKey ev strategy = k
      · subst hk
        refine ⟨latestBlock, ?_, ?_⟩
        · rw [hst]
          exact findCursor_setCursor_self store (cursorKey ev strategy) latestBlock
        · rw [hc] at hle
          by_cases hc0 : c = 0
          · omega
          · have hcf : computeFromBlock (some c) latestBlock = c + 1 := by
              simp [computeFromBlock, jsTruthy, hc0]
            omega
      · refine ⟨c, ?_, le_refl c⟩
        rw [hst, findCursor_setCursor_ne store _ k latestBlock hk]
        exact hc
  · intro c hc hpos call hcall
    have h1 := processOneEvent_calls_shape fetch sink latestBlock strategy store ev call hcall
    have hfb : computeFromBlock (findCursor store (cursorKey ev strategy)) latestBlock
        = c + 1 := by
      rw [hc]
      simp [computeFromBlock, jsTruthy, hpos.ne']
    refine ⟨by rw [h1.1, hfb], h1.2, by rw [h1.1, hfb]; omega⟩

/-- Witness for the amended C4: with cursor 5 for the key and latest block
10, the cursor rises to a value at least 5 and the single range fetched is
[6, 10], starting strictly above 5. -/
theorem C4_amended_witness :
    (∃ c', findCursor (processOneEvent emptyFetch okSink 10 stratBN
        [(sampleKeyBN, 5)] sampleEvent).store sampleKeyBN = some c' ∧ 5 ≤ c') ∧
    ∀ call ∈ (processOneEvent emptyFetch okSink 10 stratBN
        [(sampleKeyBN, 5)] sampleEvent).calls,
      call.fromBlock = 5 + 1 ∧ call.toBlock = 10 ∧ 5 < call.fromBlock := by
  have h := C4_amended_cursor_monotone_ranges_increasing emptyFetch okSink 10 stratBN
    [(sampleKeyBN, 5)] sampleEvent
  exact ⟨h.1 sampleKeyBN 5 (by decide), h.2 5 (by decide) (by decide)⟩

/-- Claim C8: for a network identifier outside the supported set, endpoint
resolution fails with the unsupported-chain error before any RPC call is
made for that network, the cursor store is untouched, and the failure is
confined to the iteration: the caught error surfaces in the iteration
result and the driver still proceeds to the next iteration. -/
theorem C8_unknown_network_no_rpc (chain : String)
    (h : chain ∉ supportedChains) :
    (∀ apiKey, getRpcUrl apiKey chain =
      Except.error ("Unsupported chain: " ++ chain)) ∧
    (∀ (latest : String → String → Except String Nat)
      (fetch : FetchCall → Except String (List RawLogEntry))
      (sink : LogRecord → Option String) (apiKey : String)
      (store : CursorStore) (nes : List Event),
      processNetwork latest fetch sink apiKey store chain nes =
        { store := store, rpcCalls := [],
          err := some ("Unsupported chain: " ++ chain) }) ∧
    (∀ (latest : Nat → String → String → Except String Nat)
      (fetch : Nat → FetchCall → Except String (List RawLogEntry))
      (sink : Nat → LogRecord → Option String) (apiKey : String)
      (events : List Event) (n : Nat) (store : CursorStore),
      runContinuouslyN latest fetch sink apiKey events (n + 1) store =
        (processLogs (latest n) (fetch n) (sink n) apiKey events
          (runContinuouslyN latest fetch sink apiKey events n store)).store) := by
  simp only [supportedChains, List.mem_cons, List.not_mem_nil, or_false, not_or] at h
  obtain ⟨h1, h2, h3, h4, h5, h6⟩ := h
  have hurl : ∀ apiKey, getRpcUrl apiKey chain =
      Except.error ("Unsupported chain: " ++ chain) := by
    intro apiKey
    simp [getRpcUrl, h1, h2, h3, h4, h5, h6]
  refine ⟨hurl, ?_, fun _ _ _ _ _ _ _ => rfl⟩
  intro latest fetch sink apiKey store nes
  simp only [processNetwork, hurl apiKey]

/-- Witness for C8: the chain name polygon is not supported; its endpoint
resolution errors and its network processing issues no RPC call, leaves the
store unchanged and surfaces the error. -/
theorem C8_unknown_network_no_rpc_witness :
    getRpcUrl ("key") ("polygon") =
      Except.error ("Unsupported chain: " ++ "polygon") ∧
    processNetwork (fun _ _ => Except.ok 7) emptyFetch okSink ("key")
        [(sampleKeyBN, 5)] ("polygon") [sampleEvent] =
      { store := [(sampleKeyBN, 5)], rpcCalls := [],
        err := some ("Unsupported chain: " ++ "polygon") } := by
  have h := C8_unknown_network_no_rpc ("polygon") (by decide)
  exact ⟨h.1 ("key"), h.2.1 (fun _ _ => Except.ok 7) emptyFetch okSink ("key")
    [(sampleKeyBN, 5)] [sampleEvent]⟩

/-- Claim C9: no error arising inside an iteration terminates the poll
loop: `processLogs` absorbs exactly the error its iteration body raised
(returning it as a logged value together with the store the body left
behind), and the driver unconditionally proceeds from each iteration to the
next. -/
theorem C9_loop_survives_iteration_errors
    (latest : Nat → String → String → Except String Nat)
    (fetch : Nat → FetchCall → Except String (List RawLogEntry))
    (sink : Nat → LogRecord → Option String) (apiKey : String)
    (events : List Event) (store : CursorStore) (n : Nat) :
    runContinuouslyN latest fetch sink apiKey events (n + 1) store =
      (processLogs (latest n) (fetch n) (sink n) apiKey events
        (runContinuouslyN latest fetch sink apiKey events n store)).store ∧
    (∀ (l : String → String → Except String Nat)
      (f : FetchCall → Except String (List RawLogEntry))
      (s : LogRecord → Option String) (st : CursorStore),
      (processLogs l f s apiKey events st).store =
        (processNetworks l f s apiKey st (groupByChain events)).store ∧
      (processLogs l f s apiKey events st).caught =
        (processNetworks l f s apiKey st (groupByChain events)).err) :=
  ⟨rfl, fun _ _ _ _ => ⟨rfl, rfl⟩⟩

end CronJob
